import Mathlib

/-!
Verification of the two-stage OCI-FOCUS-to-GCS reconciliation pipeline.

The development shallowly embeds the two core modules:

* the Partition Stage (`src/reorganize.ts`): key parsing (`parseFilePath`),
  the derived calendar date with JavaScript `Date` rollover semantics,
  the incremental date window (`isWithinDateRange`), the destination key
  (`buildHivePath`), and the full run (`reorganizeToHive`) as a pure
  function of the configuration, an object-store world state, a per-object
  fault oracle, and the current time;
* the Mirror Stage (`src/sync.ts`): rclone output parsing
  (`parseRcloneOutput`) with the JavaScript `JSON.parse` primitive passed
  in as an oracle, the two textual fallback patterns as deterministic
  leftmost-match scanners, and `syncOciToGcs` over a recorded subprocess
  result.

Modelling conventions: JavaScript numbers are modelled as exact rationals
(every quantity in scope is far below 2^53, and the one fractional
computation the claims touch, 1.5 * 1024^3, is exact in binary doubles);
local time is modelled as a uniform 86,400,000 ms day (no DST shifts);
wall-clock `duration_seconds` fields are not modelled.
-/

/-! ## Characters and digits -/

/-- `\d` of a JavaScript regular expression: ASCII `0`-`9` only. -/
def isDigit (c : Char) : Bool :=
  '0' ≤ c && c ≤ '9'

/-- The four JavaScript line terminators, which `.` does not match. -/
def isLineTerminator (c : Char) : Bool :=
  c = '\n' || c = '\r' || c = Char.ofNat 0x2028 || c = Char.ofNat 0x2029

/-- Numeric value of a digit string, as consumed by `parseInt(s, 10)` on an
all-digit input (exact; precision loss of doubles is out of scope since
every digit run in scope is short). -/
def digitsVal (ds : List Char) : Nat :=
  ds.foldl (fun a c => a * 10 + (c.toNat - 48)) 0

/-! ## Calendar arithmetic: JavaScript `Date`

A `Date` value holding a local-calendar instant is modelled by its offset
in milliseconds from the local epoch midnight; `msPerDay` converts between
that offset and a civil day number. -/

def msPerDay : Int := 86400000

/-- Day number of the proleptic Gregorian date `y-m-d` (month `1`-`12`,
day `1` in our uses), counted from the epoch 1970-01-01. -/
def daysFromCivil (y m d : Int) : Int :=
  let yAdj := if m ≤ 2 then y - 1 else y
  let era := yAdj.fdiv 400
  let yoe := yAdj - era * 400
  let mp := if 2 < m then m - 3 else m + 9
  let doy := (153 * mp + 2).fdiv 5 + (d - 1)
  let doe := yoe * 365 + yoe.fdiv 4 - yoe.fdiv 100 + doy
  era * 146097 + doe - 719468

/-- Civil day denoted by `new Date(year, monthIndex, day)` (local midnight):
two-digit years are offset by 1900, the zero-based month rolls into the
year, and an out-of-range day rolls into the following months. -/
def jsDateDays (year monthIndex day : Int) : Int :=
  let yr := if 0 ≤ year ∧ year ≤ 99 then year + 1900 else year
  let yn := yr + monthIndex.fdiv 12
  let mn := monthIndex.emod 12 + 1
  daysFromCivil yn mn 1 + (day - 1)

/-! ## Partition Stage: key parsing (`parseFilePath`) -/

/-- Result of parsing one staged object key (interface `ParsedFile`).
`date` is the `Date` value (local-midnight millisecond offset) derived as
`new Date(parseInt(year), parseInt(month) - 1, parseInt(day))`. -/
structure ParsedFile where
  year : String
  month : String
  day : String
  filename : String
  fullPath : String
  date : Int
deriving DecidableEq, Repr, Inhabited

/-- Consume an exact literal from the front of the input. -/
def dropLiteral : List Char → List Char → Option (List Char)
  | [], cs => some cs
  | _, [] => none
  | l :: ls, c :: cs => if c = l then dropLiteral ls cs else none

/-- Consume exactly `n` ASCII digits (`\d{n}` followed by a non-optional
delimiter never backtracks). -/
def takeDigits : Nat → List Char → Option (List Char × List Char)
  | 0, cs => some ([], cs)
  | _ + 1, [] => none
  | n + 1, c :: cs =>
    if isDigit c then (takeDigits n cs).map (fun p => (c :: p.1, p.2)) else none

/-- The filename group `.+\.csv\.gz` against the remainder of the key:
ends in `.csv.gz`, has at least one character before that suffix, and
contains no line terminator (which `.` cannot match). -/
def filenameOk (f : List Char) : Bool :=
  decide (8 ≤ f.length) && (f.drop (f.length - 7) == ".csv.gz".toList)
    && f.all (fun c => !(isLineTerminator c))

/-- `parseFilePath` of `src/reorganize.ts`: match the anchored pattern
`^FOCUS-Reports\/(\d{4})\/(\d{2})\/(\d{2})\/(.+\.csv\.gz)$` (every adjacent
pair of tokens draws from disjoint character classes, so the greedy match
is deterministic) and build the `ParsedFile` record. -/
def parseFilePath (path : String) : Option ParsedFile :=
  match dropLiteral "FOCUS-Reports/".toList path.toList with
  | none => none
  | some r0 =>
  match takeDigits 4 r0 with
  | none => none
  | some (y, r1) =>
  match dropLiteral ['/'] r1 with
  | none => none
  | some r2 =>
  match takeDigits 2 r2 with
  | none => none
  | some (m, r3) =>
  match dropLiteral ['/'] r3 with
  | none => none
  | some r4 =>
  match takeDigits 2 r4 with
  | none => none
  | some (d, r5) =>
  match dropLiteral ['/'] r5 with
  | none => none
  | some f =>
    if filenameOk f then
      some { year := String.mk y, month := String.mk m, day := String.mk d,
             filename := String.mk f, fullPath := path,
             date := jsDateDays (digitsVal y) ((digitsVal m : Int) - 1) (digitsVal d)
                       * msPerDay }
    else none

/-- `isWithinDateRange` of `src/reorganize.ts`: the cutoff `Date` is built
from `now` by `setDate(getDate() - daysToSync)` followed by
`setHours(0,0,0,0)`, i.e. the midnight of `daysToSync` civil days before
`now`; the file's date passes when it is `>=` that cutoff. -/
def isWithinDateRange (fileDate : Int) (nowMs : Int) (daysToSync : Int) : Bool :=
  let cutoffDate := (nowMs.fdiv msPerDay - daysToSync) * msPerDay
  decide (cutoffDate ≤ fileDate)

/-- `buildHivePath` of `src/reorganize.ts`. -/
def buildHivePath (parsed : ParsedFile) : String :=
  "year=" ++ parsed.year ++ "/month=" ++ parsed.month ++ "/day=" ++ parsed.day
    ++ "/" ++ parsed.filename

/-! ## Partition Stage: the run (`reorganizeToHive`)

The Google Cloud Storage client is modelled by an explicit world state
(`Gcs`) plus a fault oracle (`Ops`) giving, per object, whether the
destination existence check or the server-side copy throws; `none` means
the operation succeeds. Bucket identifiers only select external resources
and are represented by the world state itself. -/

/-- `Config.job` fields consumed by the two stages. Remote names, bucket
names, project id and the log level only address external resources and
are not part of the model. -/
inductive SyncMode where
  | full
  | incremental
deriving DecidableEq, Repr

structure Config where
  syncMode : SyncMode
  daysToSync : Int
  dryRun : Bool
deriving DecidableEq, Repr

/-- World state of the two buckets: existence flags and object listings
(`stagingObjects` are full key strings; `hiveObjects` destination keys). -/
structure Gcs where
  stagingExists : Bool
  hiveExists : Bool
  stagingObjects : List String
  hiveObjects : List String
deriving DecidableEq, Repr

/-- Fault oracle: `existsFails dest` (resp. `copyFails src`) is the error
message thrown by the destination existence check (resp. the copy) for
that object, or `none` when the call succeeds. -/
structure Ops where
  existsFails : String → Option String
  copyFails : String → Option String

/-- Result record `ReorganizeResult` (`duration_seconds`, a wall-clock
reading, is not modelled). -/
structure ReorganizeResult where
  files_processed : Nat
  files_copied : Nat
  files_skipped : Nat
  files_errored : Nat
deriving DecidableEq, Repr

/-- The mutable locals of the copy loop: the three counters, the `errors`
array, and the destination bucket contents as copies land. -/
structure LoopState where
  copied : Nat
  skipped : Nat
  errored : Nat
  errors : List (String × String)
  hive : List String
deriving DecidableEq, Repr

/-- One iteration of the live copy loop (lines 188-224 of
`src/reorganize.ts`): inside `try`, check destination existence, then
either count a skip or copy and count a copy; `catch` records the object
path and message and counts an error. -/
def processOne (ops : Ops) (st : LoopState) (parsed : ParsedFile) : LoopState :=
  let hivePath := buildHivePath parsed
  match ops.existsFails hivePath with
  | some msg =>
      { st with errored := st.errored + 1
                errors := st.errors ++ [(parsed.fullPath, msg)] }
  | none =>
      if hivePath ∈ st.hive then
        { st with skipped := st.skipped + 1 }
      else
        match ops.copyFails parsed.fullPath with
        | some msg =>
            { st with errored := st.errored + 1
                      errors := st.errors ++ [(parsed.fullPath, msg)] }
        | none =>
            { st with copied := st.copied + 1, hive := st.hive ++ [hivePath] }

/-- `getFiles({ prefix: "FOCUS-Reports/" })`: keys under the listing
prefix, in listing order. -/
def listedNames (objs : List String) : List String :=
  objs.filter (fun n => "FOCUS-Reports/".toList.isPrefixOf n.toList)

/-- The sync-mode filter applied to a parsed file (lines 146-153). -/
def keepFile (cfg : Config) (nowMs : Int) (p : ParsedFile) : Bool :=
  match cfg.syncMode with
  | .full => true
  | .incremental => isWithinDateRange p.date nowMs cfg.daysToSync

/-- The `parsedFiles` array built by the parse-and-filter loop
(lines 137-156): parse each listed key, drop non-matching keys silently,
and in incremental mode drop out-of-window files. -/
def eligibleFiles (cfg : Config) (nowMs : Int) (objs : List String) : List ParsedFile :=
  (listedNames objs).filterMap (fun n =>
    match parseFilePath n with
    | none => none
    | some p => if keepFile cfg nowMs p then some p else none)

/-- Everything observable from one Partition Stage run: the returned
statistics, the world state afterwards, and the `errors` array reported
at the end. -/
structure RunOutcome where
  result : ReorganizeResult
  gcs : Gcs
  errors : List (String × String)
deriving DecidableEq, Repr

/-- `reorganizeToHive` of `src/reorganize.ts`. Dry-run mode only checks
bucket existence (short-circuiting when staging is missing) and counts;
live mode creates missing buckets (a created bucket starts empty), then
runs the copy loop over the eligible files. -/
def reorganizeToHive (cfg : Config) (ops : Ops) (nowMs : Int) (gcs : Gcs) : RunOutcome :=
  if cfg.dryRun then
    if gcs.stagingExists = false then
      { result := ⟨0, 0, 0, 0⟩, gcs := gcs, errors := [] }
    else
      let parsedFiles := eligibleFiles cfg nowMs gcs.stagingObjects
      { result := ⟨parsedFiles.length, 0, 0, 0⟩, gcs := gcs, errors := [] }
  else
    let gcs1 : Gcs :=
      { stagingExists := true
        hiveExists := true
        stagingObjects := if gcs.stagingExists then gcs.stagingObjects else []
        hiveObjects := if gcs.hiveExists then gcs.hiveObjects else [] }
    let parsedFiles := eligibleFiles cfg nowMs gcs1.stagingObjects
    let st := parsedFiles.foldl (processOne ops)
      { copied := 0, skipped := 0, errored := 0, errors := [], hive := gcs1.hiveObjects }
    { result := ⟨parsedFiles.length, st.copied, st.skipped, st.errored⟩
      gcs := { gcs1 with hiveObjects := st.hive }
      errors := st.errors }

/-! ## Mirror Stage: rclone output parsing (`parseRcloneOutput`)

The two fallback regular expressions are embedded as deterministic
matchers. In both patterns every adjacent pair of tokens draws from
disjoint character classes (`\s`, `\d`, `[\d.]`, the literal delimiters
and the unit letters never overlap), so the greedy match at a position is
deterministic and the engine's leftmost-match rule reduces to scanning
start positions left to right. The only backtracking that can succeed is
over the two optional unit letters, tried in the engine's greedy order. -/

/-- The fields of `Partial<RcloneStats>` that the Mirror Stage reads
(`transfers`, `totalTransfers`, `bytes`); the remaining fields of the
`RcloneStats` interface are never consulted. JavaScript numbers are
modelled as rationals. -/
structure RcloneStatsPartial where
  transfers : Option ℚ
  totalTransfers : Option ℚ
  bytes : Option ℚ
deriving DecidableEq, Repr

/-- `output.split("\n")`. -/
def splitOnNl (cs : List Char) : List (List Char) :=
  cs.foldr
    (fun c acc =>
      match acc with
      | [] => [[c]]
      | l :: ls => if c = '\n' then [] :: l :: ls else (c :: l) :: ls)
    [[]]

/-- `line.includes(sub)`. -/
def containsSub (sub : List Char) : List Char → Bool
  | [] => sub.isPrefixOf []
  | c :: cs => sub.isPrefixOf (c :: cs) || containsSub sub cs

/-- The JSON detection loop (lines 123-133 of `src/sync.ts`): scan lines
in order; on a line containing both `"transfers"` and `"bytes"`, attempt
`JSON.parse` (the oracle `jp`) and return its result on success; on parse
failure or a non-candidate line, continue. -/
def tryJsonLines (jp : List Char → Option RcloneStatsPartial) :
    List (List Char) → Option RcloneStatsPartial
  | [] => none
  | l :: ls =>
    if containsSub "\"transfers\"".toList l && containsSub "\"bytes\"".toList l then
      match jp l with
      | some s => some s
      | none => tryJsonLines jp ls
    else tryJsonLines jp ls

/-- JavaScript `\s` on the characters that occur in rclone output (space,
tab, the line terminators, vertical tab, form feed, no-break space; the
remaining Unicode space separators are omitted from the model). -/
def jsWhitespace (c : Char) : Bool :=
  c = ' ' || c = '\t' || c = '\n' || c = '\r' || c = Char.ofNat 11
    || c = Char.ofNat 12 || c = Char.ofNat 0xa0 || c = Char.ofNat 0x2028
    || c = Char.ofNat 0x2029

/-- ASCII lowercasing, for the `/i` flag. -/
def charLower (c : Char) : Char :=
  if 'A' ≤ c ∧ c ≤ 'Z' then Char.ofNat (c.toNat + 32) else c

/-- Case-insensitive literal consumption. -/
def dropLiteralCI : List Char → List Char → Option (List Char)
  | [], cs => some cs
  | _, [] => none
  | l :: ls, c :: cs => if charLower c = charLower l then dropLiteralCI ls cs else none

/-- Greedy `p+`: the maximal nonempty run of `p`-characters. -/
def takeWhile1 (p : Char → Bool) (cs : List Char) : Option (List Char × List Char) :=
  match cs.takeWhile p with
  | [] => none
  | t => some (t, cs.dropWhile p)

/-- The first pattern, `/Transferred:\s+(\d+)\s*\/\s*(\d+),\s*(\d+)%/`,
matched at the current position; yields `(parseInt(m[1]), parseInt(m[2]))`. -/
def matchCountAt (cs : List Char) : Option (Nat × Nat) :=
  match dropLiteral "Transferred:".toList cs with
  | none => none
  | some r1 =>
  match takeWhile1 jsWhitespace r1 with
  | none => none
  | some (_, r2) =>
  match takeWhile1 isDigit r2 with
  | none => none
  | some (d1, r3) =>
  match dropLiteral ['/'] (r3.dropWhile jsWhitespace) with
  | none => none
  | some r4 =>
  match takeWhile1 isDigit (r4.dropWhile jsWhitespace) with
  | none => none
  | some (d2, r5) =>
  match dropLiteral [','] r5 with
  | none => none
  | some r6 =>
  match takeWhile1 isDigit (r6.dropWhile jsWhitespace) with
  | none => none
  | some (_, r7) =>
  match dropLiteral ['%'] r7 with
  | none => none
  | some _ => some (digitsVal d1, digitsVal d2)

def isKMGT (c : Char) : Bool :=
  charLower c = 'k' || charLower c = 'm' || charLower c = 'g' || charLower c = 't'

def isLetterI (c : Char) : Bool := charLower c = 'i'

def isLetterB (c : Char) : Bool := charLower c = 'b'

/-- The unit group `([KMGT]?i?B)` under `/i`, at the current position.
The two optional letters backtrack in the engine's greedy order:
`KiB`-shape first, then `KB`, then `iB`, then bare `B`. -/
def matchUnitAt : List Char → Option (List Char)
  | [] => none
  | [c1] => if isLetterB c1 then some [c1] else none
  | [c1, c2] =>
    if isKMGT c1 && isLetterB c2 then some [c1, c2]
    else if isLetterI c1 && isLetterB c2 then some [c1, c2]
    else if isLetterB c1 then some [c1]
    else none
  | c1 :: c2 :: c3 :: _ =>
    if isKMGT c1 && isLetterI c2 && isLetterB c3 then some [c1, c2, c3]
    else if isKMGT c1 && isLetterB c2 then some [c1, c2]
    else if isLetterI c1 && isLetterB c2 then some [c1, c2]
    else if isLetterB c1 then some [c1]
    else none

/-- The second pattern, `/Transferred:\s+([\d.]+)\s*([KMGT]?i?B)/i`,
matched at the current position; yields the two capture groups. -/
def matchBytesAt (cs : List Char) : Option (List Char × List Char) :=
  match dropLiteralCI "Transferred:".toList cs with
  | none => none
  | some r1 =>
  match takeWhile1 jsWhitespace r1 with
  | none => none
  | some (_, r2) =>
  match takeWhile1 (fun c => isDigit c || c = '.') r2 with
  | none => none
  | some (num, r3) =>
  match matchUnitAt (r3.dropWhile jsWhitespace) with
  | none => none
  | some unit => some (num, unit)

/-- Leftmost match: try the position matcher at each start position, left
to right (`String.prototype.match` without the `g` flag). -/
def scanMatch {α : Type} (m : List Char → Option α) : List Char → Option α
  | [] => none
  | c :: cs =>
    match m (c :: cs) with
    | some r => some r
    | none => scanMatch m cs

/-- `parseFloat` on a capture of `[\d.]+`: leading digits, then an
optional fraction after the first dot; no digit at all in that leading
portion gives `NaN`, modelled as `none`. -/
def parseFloatQ (cs : List Char) : Option ℚ :=
  let ip := cs.takeWhile isDigit
  let rest := cs.dropWhile isDigit
  match rest with
  | '.' :: rest2 =>
    let fp := rest2.takeWhile isDigit
    if ip.isEmpty && fp.isEmpty then none
    else some ((digitsVal ip : ℚ) + (digitsVal fp : ℚ) / ((10 : ℚ) ^ fp.length))
  | _ => if ip.isEmpty then none else some ((digitsVal ip : ℚ))

/-- `Math.round`: round half toward positive infinity. -/
def jsRound (q : ℚ) : Int := ⌊q + 1 / 2⌋

/-- The unit chain of lines 149-153: uppercase the captured unit and test
`includes` for `K`, `M`, `G`, `T` in that order; ×1024 per step. -/
def unitMultiplier (unit : List Char) : ℚ :=
  let u := unit.map (fun c => if 'a' ≤ c ∧ c ≤ 'z' then Char.ofNat (c.toNat - 32) else c)
  if u.contains 'K' then 1024
  else if u.contains 'M' then 1024 * 1024
  else if u.contains 'G' then 1024 * 1024 * 1024
  else if u.contains 'T' then 1024 * 1024 * 1024 * 1024
  else 1

/-- The textual fallback (lines 136-155): the two patterns fill their
fields independently; a byte capture whose number parses as `NaN`
(possible only for an all-dots capture) leaves the field unset, matching
its downstream coalescing through `|| 0`. -/
def fallbackStats (output : List Char) : RcloneStatsPartial :=
  let s0 : RcloneStatsPartial := ⟨none, none, none⟩
  let s1 :=
    match scanMatch matchCountAt output with
    | some p => { s0 with transfers := some (p.1 : ℚ), totalTransfers := some (p.2 : ℚ) }
    | none => s0
  match scanMatch matchBytesAt output with
  | some (num, unit) =>
    match parseFloatQ num with
    | some q => { s1 with bytes := some ((jsRound (q * unitMultiplier unit) : ℚ)) }
    | none => s1
  | none => s1

/-- `parseRcloneOutput` of `src/sync.ts`, with `JSON.parse` supplied as
the oracle `jp` (it is a runtime primitive; the model only assumes it
yields the three read fields when it succeeds). -/
def parseRcloneOutput (jp : List Char → Option RcloneStatsPartial)
    (output : String) : RcloneStatsPartial :=
  match tryJsonLines jp (splitOnNl output.toList) with
  | some jsonStats => jsonStats
  | none => fallbackStats output.toList

/-! ## Mirror Stage: the run (`syncOciToGcs`) -/

/-- `SyncResult` (`duration_seconds` is a wall-clock reading, not
modelled). -/
structure SyncResult where
  files_transferred : ℚ
  bytes_transferred : ℚ
deriving DecidableEq, Repr

/-- The recorded outcome of the spawned rclone subprocess: exit code and
the two captured streams. -/
structure ProcResult where
  exitCode : Int
  stdout : String
  stderr : String
deriving DecidableEq, Repr

/-- `syncOciToGcs` of `src/sync.ts` over the recorded subprocess result:
an `Except` value (the thrown `Error`'s message, or the returned
statistics) paired with the error-level log lines emitted. In live mode a
non-zero exit logs the failure and the diagnostic stream and throws;
otherwise the combined output is parsed and the two counters default
missing fields to zero (`|| 0`). -/
def syncOciToGcs (cfg : Config) (jp : List Char → Option RcloneStatsPartial)
    (run : ProcResult) : Except String SyncResult × List String :=
  if cfg.dryRun then
    if run.exitCode ≠ 0 then
      (Except.error ("rclone lsf failed with exit code " ++ toString run.exitCode),
       ["rclone lsf failed: " ++ run.stderr])
    else
      (Except.ok { files_transferred := 0, bytes_transferred := 0 }, [])
  else
    if run.exitCode ≠ 0 then
      (Except.error ("rclone sync failed with exit code " ++ toString run.exitCode),
       ["rclone sync failed with exit code " ++ toString run.exitCode, run.stderr])
    else
      let stats := parseRcloneOutput jp (run.stdout ++ "\n" ++ run.stderr)
      (Except.ok { files_transferred := stats.transfers.getD 0,
                   bytes_transferred := stats.bytes.getD 0 }, [])

/-! ## Spec-side definitions

Declarative counterparts written from the specification's wording, to be
compared against the parsing code above. -/

/-- The specification's filename group `.+\.csv\.gz`: some nonempty prefix
followed by the literal suffix, with no line terminator anywhere. -/
def filenameSpec (f : List Char) : Prop :=
  (∃ g, g ≠ [] ∧ f = g ++ ".csv.gz".toList) ∧ ∀ c ∈ f, isLineTerminator c = false

/-- The specification's staged-key structure
`FOCUS-Reports/<4 digits>/<2 digits>/<2 digits>/<name>.csv.gz`, full match
required, as a declarative decomposition of the key. -/
def matchesKeyStructure (s : String) : Prop :=
  ∃ y m d f : List Char,
    s.toList = "FOCUS-Reports/".toList ++ y ++ '/' :: m ++ '/' :: d ++ '/' :: f ∧
    y.length = 4 ∧ (∀ c ∈ y, isDigit c = true) ∧
    m.length = 2 ∧ (∀ c ∈ m, isDigit c = true) ∧
    d.length = 2 ∧ (∀ c ∈ d, isDigit c = true) ∧
    filenameSpec f

/-- The specification's cutoff, in civil days: the current date minus the
configured day count, truncated to midnight. -/
def cutoffDay (nowMs daysToSync : Int) : Int :=
  nowMs.fdiv msPerDay - daysToSync

/-- The civil day of a parsed file's derived date. -/
def fileDay (p : ParsedFile) : Int :=
  p.date.fdiv msPerDay

/-- The specification's retention rule (§4.2 step 4): full mode retains
every parsed object; incremental mode retains an object exactly when its
derived date is on or after the cutoff (closed lower bound, no upper
bound). -/
def specRetains (cfg : Config) (nowMs : Int) (p : ParsedFile) : Bool :=
  match cfg.syncMode with
  | .full => true
  | .incremental => decide (cutoffDay nowMs cfg.daysToSync ≤ fileDay p)

/-! ## Concrete instances used by the witnesses and the counterexample -/

/-- A fault-free object store. -/
def opsOk : Ops := ⟨fun _ => none, fun _ => none⟩

def cfgLiveFull : Config := ⟨.full, 7, false⟩

def gcsW1 : Gcs :=
  ⟨true, true,
   ["FOCUS-Reports/2024/06/08/a.csv.gz", "junk",
    "FOCUS-Reports/2024/06/09/b.csv.gz"], []⟩

/-- Ten eligible staged keys. -/
def keysW2 : List String :=
  ["FOCUS-Reports/2024/06/01/f01.csv.gz", "FOCUS-Reports/2024/06/02/f02.csv.gz",
   "FOCUS-Reports/2024/06/03/f03.csv.gz", "FOCUS-Reports/2024/06/04/f04.csv.gz",
   "FOCUS-Reports/2024/06/05/f05.csv.gz", "FOCUS-Reports/2024/06/06/f06.csv.gz",
   "FOCUS-Reports/2024/06/07/f07.csv.gz", "FOCUS-Reports/2024/06/08/f08.csv.gz",
   "FOCUS-Reports/2024/06/09/f09.csv.gz", "FOCUS-Reports/2024/06/10/f10.csv.gz"]

def gcsW2 : Gcs := ⟨true, true, keysW2, []⟩

def badKeyW2 : String := "FOCUS-Reports/2024/06/03/f03.csv.gz"

/-- A store whose copy call throws exactly for object #3. -/
def opsW2 : Ops :=
  ⟨fun _ => none, fun s => if s = badKeyW2 then some "copy failed" else none⟩

def psW2 : List ParsedFile := eligibleFiles cfgLiveFull 0 keysW2

def badW2 : ParsedFile := psW2[2]!

def cfgDryW : Config := ⟨.incremental, 7, true⟩

def nowW3 : Int := daysFromCivil 2024 6 15 * msPerDay

def gcsW3 : Gcs :=
  ⟨true, true,
   ["FOCUS-Reports/2024/06/08/a.csv.gz", "junk",
    "FOCUS-Reports/2024/06/07/old.csv.gz"], []⟩

def gcsW5 : Gcs := ⟨true, true, ["FOCUS-Reports/2024/06/08/a.csv.gz"], []⟩

/-- A `JSON.parse` oracle that fails on every line. -/
def jpNone : List Char → Option RcloneStatsPartial := fun _ => none

def runFailW : ProcResult := ⟨1, "", "boom"⟩

def runOkW : ProcResult := ⟨0, "Transferred: 5 / 10, 50%", ""⟩

/-- A line carrying both detection substrings. -/
def jsonLineW : List Char := "json \"transfers\" \"bytes\" line".toList

/-- A structured result that lacks the byte field. -/
def statsW7 : RcloneStatsPartial := ⟨some 7, none, none⟩

/-- `JSON.parse` succeeding exactly on the structured line above. -/
def jpW7 : List Char → Option RcloneStatsPartial :=
  fun l => if l = jsonLineW then some statsW7 else none

/-- Output holding a parseable structured line followed by a textual byte
summary. -/
def outW7 : String := "json \"transfers\" \"bytes\" line\nTransferred: 1.5 GiB"

def outW8 : String := "Transferred: 1.5 GiB"

/-- Output containing `Transferred: 1.5 GiB` only after an earlier byte
quantity. -/
def cexOut8 : String := "Transferred: 2 KB then Transferred: 1.5 GiB"

def rolloverKey : String := "FOCUS-Reports/2024/13/40/x.csv.gz"

def cfgIncr9 : Config := ⟨.incremental, 7, false⟩


/-! ## Loop lemmas for the Partition Stage copy loop -/

/-- The `catch` outcome of one iteration: the existence check throws. -/
theorem processOne_err (ops : Ops) (st : LoopState) (p : ParsedFile) (msg : String)
    (h : ops.existsFails (buildHivePath p) = some msg) :
    processOne ops st p =
      { st with errored := st.errored + 1, errors := st.errors ++ [(p.fullPath, msg)] } := by
  unfold processOne
  simp only [h]

/-- The skip outcome: the destination object already exists. -/
theorem processOne_skip (ops : Ops) (st : LoopState) (p : ParsedFile)
    (h : ops.existsFails (buildHivePath p) = none)
    (hm : buildHivePath p ∈ st.hive) :
    processOne ops st p = { st with skipped := st.skipped + 1 } := by
  unfold processOne
  simp only [h, if_pos hm]

/-- The `catch` outcome when the copy throws. -/
theorem processOne_copyerr (ops : Ops) (st : LoopState) (p : ParsedFile) (msg : String)
    (h : ops.existsFails (buildHivePath p) = none)
    (hm : buildHivePath p ∉ st.hive)
    (hc : ops.copyFails p.fullPath = some msg) :
    processOne ops st p =
      { st with errored := st.errored + 1, errors := st.errors ++ [(p.fullPath, msg)] } := by
  unfold processOne
  simp only [h, if_neg hm, hc]

/-- The copy outcome: the destination object is created. -/
theorem processOne_copy (ops : Ops) (st : LoopState) (p : ParsedFile)
    (h : ops.existsFails (buildHivePath p) = none)
    (hm : buildHivePath p ∉ st.hive)
    (hc : ops.copyFails p.fullPath = none) :
    processOne ops st p =
      { st with copied := st.copied + 1, hive := st.hive ++ [buildHivePath p] } := by
  unfold processOne
  simp only [h, if_neg hm, hc]

/-- The copy loop never removes a destination object. -/
theorem processOne_hive_mono (ops : Ops) (st : LoopState) (p : ParsedFile)
    (x : String) (hx : x ∈ st.hive) : x ∈ (processOne ops st p).hive := by
  cases h : ops.existsFails (buildHivePath p) with
  | some msg => rw [processOne_err ops st p msg h]; exact hx
  | none =>
    by_cases hm : buildHivePath p ∈ st.hive
    · rw [processOne_skip ops st p h hm]; exact hx
    · cases hc : ops.copyFails p.fullPath with
      | some msg => rw [processOne_copyerr ops st p msg h hm hc]; exact hx
      | none =>
        rw [processOne_copy ops st p h hm hc]
        exact List.mem_append_left _ hx

/-- The loop as a whole never removes a destination object. -/
theorem foldl_hive_mono (ops : Ops) (ps : List ParsedFile) (st : LoopState)
    (x : String) (hx : x ∈ st.hive) :
    x ∈ (ps.foldl (processOne ops) st).hive := by
  induction ps generalizing st with
  | nil => simpa using hx
  | cons p ps ih =>
    simpa using ih (processOne ops st p) (processOne_hive_mono ops st p x hx)

/-- After a fault-free iteration this file's destination object exists. -/
theorem processOne_ok_mem (ops : Ops) (st : LoopState) (p : ParsedFile)
    (he : ops.existsFails (buildHivePath p) = none)
    (hc : ops.copyFails p.fullPath = none) :
    buildHivePath p ∈ (processOne ops st p).hive := by
  by_cases hm : buildHivePath p ∈ st.hive
  · rw [processOne_skip ops st p he hm]; exact hm
  · rw [processOne_copy ops st p he hm hc]
    exact List.mem_append_right _ (List.mem_singleton.mpr rfl)

/-- After a fault-free run of the loop, every processed file's
destination object exists. -/
theorem foldl_ok_mem (ops : Ops) (ps : List ParsedFile) (st : LoopState)
    (hok : ∀ p ∈ ps, ops.existsFails (buildHivePath p) = none ∧
      ops.copyFails p.fullPath = none) :
    ∀ p ∈ ps, buildHivePath p ∈ (ps.foldl (processOne ops) st).hive := by
  induction ps generalizing st with
  | nil => intro p hp; cases hp
  | cons q ps ih =>
    intro p hp
    rcases List.mem_cons.mp hp with rfl | hp'
    · have hq := hok p (List.mem_cons_self p ps)
      simpa using foldl_hive_mono ops ps (processOne ops st p) (buildHivePath p)
        (processOne_ok_mem ops st p hq.1 hq.2)
    · simpa using ih (processOne ops st q)
        (fun r hr => hok r (List.mem_cons_of_mem q hr)) p hp'

/-- When every destination object already exists and no existence check
faults, the loop counts only skips and changes nothing else. -/
theorem foldl_all_skip (ops : Ops) (ps : List ParsedFile) (st : LoopState)
    (he : ∀ p ∈ ps, ops.existsFails (buildHivePath p) = none)
    (hmem : ∀ p ∈ ps, buildHivePath p ∈ st.hive) :
    ps.foldl (processOne ops) st = { st with skipped := st.skipped + ps.length } := by
  induction ps generalizing st with
  | nil => simp
  | cons q ps ih =>
    rw [List.foldl_cons,
      processOne_skip ops st q (he q (List.mem_cons_self q ps)) (hmem q (List.mem_cons_self q ps)),
      ih { st with skipped := st.skipped + 1 }
        (fun p hp => he p (List.mem_cons_of_mem q hp))
        (fun p hp => hmem p (List.mem_cons_of_mem q hp))]
    simp [Nat.add_assoc, Nat.add_comm 1]

/-- Each iteration increments exactly one of the three counters. -/
theorem foldl_counter_sum (ops : Ops) (ps : List ParsedFile) (st : LoopState) :
    (ps.foldl (processOne ops) st).copied + (ps.foldl (processOne ops) st).skipped
      + (ps.foldl (processOne ops) st).errored
      = st.copied + st.skipped + st.errored + ps.length := by
  induction ps generalizing st with
  | nil => simp
  | cons q ps ih =>
    rw [List.foldl_cons, ih (processOne ops st q)]
    have hone : (processOne ops st q).copied + (processOne ops st q).skipped
        + (processOne ops st q).errored = st.copied + st.skipped + st.errored + 1 := by
      cases h : ops.existsFails (buildHivePath q) with
      | some msg => rw [processOne_err ops st q msg h]; dsimp only; omega
      | none =>
        by_cases hm : buildHivePath q ∈ st.hive
        · rw [processOne_skip ops st q h hm]; dsimp only; omega
        · cases hc : ops.copyFails q.fullPath with
          | some msg => rw [processOne_copyerr ops st q msg h hm hc]; dsimp only; omega
          | none => rw [processOne_copy ops st q h hm hc]; dsimp only; omega
    simp only [List.length_cons]
    omega

/-- Over absent, pairwise-distinct destination keys with no faults, the
loop copies every file in order. -/
theorem foldl_all_copy (ops : Ops) (ps : List ParsedFile) (st : LoopState)
    (hok : ∀ p ∈ ps, ops.existsFails (buildHivePath p) = none ∧
      ops.copyFails p.fullPath = none)
    (habs : ∀ p ∈ ps, buildHivePath p ∉ st.hive)
    (hnd : (ps.map buildHivePath).Nodup) :
    ps.foldl (processOne ops) st =
      { st with copied := st.copied + ps.length,
                hive := st.hive ++ ps.map buildHivePath } := by
  induction ps generalizing st with
  | nil => simp
  | cons q ps ih =>
    have hnd' : (∀ x ∈ ps, ¬ buildHivePath x = buildHivePath q) ∧
        (ps.map buildHivePath).Nodup := by simpa using hnd
    rw [List.foldl_cons,
      processOne_copy ops st q (hok q (List.mem_cons_self q ps)).1
        (habs q (List.mem_cons_self q ps)) (hok q (List.mem_cons_self q ps)).2,
      ih { st with copied := st.copied + 1, hive := st.hive ++ [buildHivePath q] }
        (fun p hp => hok p (List.mem_cons_of_mem q hp))
        (fun p hp => by
          intro hin
          rcases List.mem_append.mp hin with h1 | h2
          · exact habs p (List.mem_cons_of_mem q hp) h1
          · have heq : buildHivePath p = buildHivePath q := by simpa using h2
            exact hnd'.1 p hp heq)
        hnd'.2]
    simp [Nat.add_assoc, Nat.add_comm 1, List.append_assoc]

/-! ## Claim theorems -/

/-- C10: in live mode, every iteration of the Partition Stage's copy loop
increments exactly one of the three counters, so the returned result
always satisfies `files_copied + files_skipped + files_errored =
files_processed`. -/
theorem counters_partition_sum (cfg : Config) (ops : Ops) (nowMs : Int) (gcs : Gcs)
    (hlive : cfg.dryRun = false) :
    (reorganizeToHive cfg ops nowMs gcs).result.files_copied
      + (reorganizeToHive cfg ops nowMs gcs).result.files_skipped
      + (reorganizeToHive cfg ops nowMs gcs).result.files_errored
      = (reorganizeToHive cfg ops nowMs gcs).result.files_processed := by
  unfold reorganizeToHive
  rw [hlive]
  simpa using foldl_counter_sum ops
    (eligibleFiles cfg nowMs (if gcs.stagingExists then gcs.stagingObjects else []))
    ⟨0, 0, 0, [], if gcs.hiveExists then gcs.hiveObjects else []⟩

/-- Witness for C10 at a live ten-object run with one injected fault:
9 + 0 + 1 = 10. -/
theorem counters_partition_sum_witness :
    (reorganizeToHive cfgLiveFull opsW2 0 gcsW2).result.files_copied
      + (reorganizeToHive cfgLiveFull opsW2 0 gcsW2).result.files_skipped
      + (reorganizeToHive cfgLiveFull opsW2 0 gcsW2).result.files_errored
      = (reorganizeToHive cfgLiveFull opsW2 0 gcsW2).result.files_processed :=
  counters_partition_sum cfgLiveFull opsW2 0 gcsW2 rfl

/-- C3: in dry-run mode the Partition Stage performs no mutating
operation — it never creates a staging or destination bucket and never
copies an object (the world state comes back unchanged) — and the result
has `files_copied = files_skipped = files_errored = 0` with
`files_processed` the count of parsed objects that match the key
structure and, in incremental mode, fall within the date window (a
missing staging bucket holds no objects, so the short-circuit reports
zero processed). -/
theorem reorganize_dry_run_pure (cfg : Config) (ops : Ops) (nowMs : Int) (gcs : Gcs)
    (hdry : cfg.dryRun = true)
    (hwf : gcs.stagingExists = false → gcs.stagingObjects = []) :
    (reorganizeToHive cfg ops nowMs gcs).gcs = gcs ∧
    (reorganizeToHive cfg ops nowMs gcs).result.files_copied = 0 ∧
    (reorganizeToHive cfg ops nowMs gcs).result.files_skipped = 0 ∧
    (reorganizeToHive cfg ops nowMs gcs).result.files_errored = 0 ∧
    (reorganizeToHive cfg ops nowMs gcs).result.files_processed =
      (eligibleFiles cfg nowMs gcs.stagingObjects).length := by
  unfold reorganizeToHive
  rw [hdry]
  cases hs : gcs.stagingExists with
  | false => simp [hs, hwf hs, eligibleFiles, listedNames]
  | true => simp [hs]

/-- Witness for C3: a dry incremental run over one in-window object, one
structurally invalid key and one out-of-window object reports 1 processed
and leaves the world untouched. -/
theorem reorganize_dry_run_pure_witness :
    (reorganizeToHive cfgDryW opsOk nowW3 gcsW3).gcs = gcsW3 ∧
    (reorganizeToHive cfgDryW opsOk nowW3 gcsW3).result.files_copied = 0 ∧
    (reorganizeToHive cfgDryW opsOk nowW3 gcsW3).result.files_skipped = 0 ∧
    (reorganizeToHive cfgDryW opsOk nowW3 gcsW3).result.files_errored = 0 ∧
    (reorganizeToHive cfgDryW opsOk nowW3 gcsW3).result.files_processed =
      (eligibleFiles cfgDryW nowW3 gcsW3.stagingObjects).length :=
  reorganize_dry_run_pure cfgDryW opsOk nowW3 gcsW3 rfl (by decide)

/-- C1: running the Partition Stage twice in live mode against an
unchanged staging object set and an unchanged destination (with the
object store answering every call) yields, on the second run,
`files_copied = 0` and `files_skipped` equal to the first run's
`files_processed`; the destination-existence check makes every object
copied by the first run count as skipped, and the destination bucket is
not changed again (nothing re-copied or overwritten). -/
theorem reorganize_second_run_idempotent (cfg : Config) (ops : Ops) (nowMs : Int) (gcs : Gcs)
    (hlive : cfg.dryRun = false)
    (hex : ∀ s, ops.existsFails s = none)
    (hcp : ∀ s, ops.copyFails s = none) :
    (reorganizeToHive cfg ops nowMs (reorganizeToHive cfg ops nowMs gcs).gcs).result.files_copied
      = 0 ∧
    (reorganizeToHive cfg ops nowMs (reorganizeToHive cfg ops nowMs gcs).gcs).result.files_skipped
      = (reorganizeToHive cfg ops nowMs gcs).result.files_processed ∧
    (reorganizeToHive cfg ops nowMs (reorganizeToHive cfg ops nowMs gcs).gcs).gcs.hiveObjects
      = (reorganizeToHive cfg ops nowMs gcs).gcs.hiveObjects := by
  have core : ∀ (ps : List ParsedFile) (st : LoopState),
      ps.foldl (processOne ops) ⟨0, 0, 0, [], (ps.foldl (processOne ops) st).hive⟩ =
        ⟨0, ps.length, 0, [], (ps.foldl (processOne ops) st).hive⟩ := by
    intro ps st
    have hmem : ∀ p ∈ ps, buildHivePath p ∈ (ps.foldl (processOne ops) st).hive :=
      foldl_ok_mem ops ps st (fun p _ => ⟨hex (buildHivePath p), hcp p.fullPath⟩)
    have := foldl_all_skip ops ps ⟨0, 0, 0, [], (ps.foldl (processOne ops) st).hive⟩
      (fun p _ => hex (buildHivePath p)) hmem
    simpa using this
  unfold reorganizeToHive
  rw [hlive]
  simp only [Bool.false_eq_true, if_false, if_true]
  rw [core (eligibleFiles cfg nowMs (if gcs.stagingExists = true then gcs.stagingObjects else []))
    ⟨0, 0, 0, [], if gcs.hiveExists = true then gcs.hiveObjects else []⟩]
  exact ⟨rfl, rfl, rfl⟩

/-- Witness for C1 at a concrete two-object staging set. -/
theorem reorganize_second_run_idempotent_witness :
    (reorganizeToHive cfgLiveFull opsOk 0
        (reorganizeToHive cfgLiveFull opsOk 0 gcsW1).gcs).result.files_copied = 0 ∧
    (reorganizeToHive cfgLiveFull opsOk 0
        (reorganizeToHive cfgLiveFull opsOk 0 gcsW1).gcs).result.files_skipped
      = (reorganizeToHive cfgLiveFull opsOk 0 gcsW1).result.files_processed ∧
    (reorganizeToHive cfgLiveFull opsOk 0
        (reorganizeToHive cfgLiveFull opsOk 0 gcsW1).gcs).gcs.hiveObjects
      = (reorganizeToHive cfgLiveFull opsOk 0 gcsW1).gcs.hiveObjects :=
  reorganize_second_run_idempotent cfgLiveFull opsOk 0 gcsW1 rfl
    (fun _ => rfl) (fun _ => rfl)

/-- C2: in the live-mode copy loop an error thrown during one object's
existence check or copy is caught per-object: the object path and message
are appended to the error list, `files_errored` is incremented, and the
loop continues — when exactly the copy of the object between `pre` and
`post` throws, the remaining objects are all still attempted (and land in
the destination), with `files_errored = 1` and `files_processed` the full
eligible count. -/
theorem reorganize_error_isolated (cfg : Config) (ops : Ops) (nowMs : Int) (gcs : Gcs)
    (pre post : List ParsedFile) (bad : ParsedFile) (msg : String)
    (hlive : cfg.dryRun = false)
    (hstg : gcs.stagingExists = true) (hhv : gcs.hiveExists = true)
    (hsplit : eligibleFiles cfg nowMs gcs.stagingObjects = pre ++ bad :: post)
    (hex : ∀ p ∈ pre ++ bad :: post, ops.existsFails (buildHivePath p) = none)
    (hcp : ∀ p ∈ pre ++ post, ops.copyFails p.fullPath = none)
    (hbad : ops.copyFails bad.fullPath = some msg)
    (hnd : ((pre ++ bad :: post).map buildHivePath).Nodup)
    (habs : ∀ p ∈ pre ++ bad :: post, buildHivePath p ∉ gcs.hiveObjects) :
    (reorganizeToHive cfg ops nowMs gcs).result.files_processed
      = pre.length + 1 + post.length ∧
    (reorganizeToHive cfg ops nowMs gcs).result.files_errored = 1 ∧
    (reorganizeToHive cfg ops nowMs gcs).result.files_copied
      = pre.length + post.length ∧
    (reorganizeToHive cfg ops nowMs gcs).errors = [(bad.fullPath, msg)] ∧
    ∀ p ∈ post, buildHivePath p ∈ (reorganizeToHive cfg ops nowMs gcs).gcs.hiveObjects := by
  have hppre : ∀ p ∈ pre, p ∈ pre ++ bad :: post :=
    fun p hp => List.mem_append_left _ hp
  have hppost : ∀ p ∈ post, p ∈ pre ++ bad :: post :=
    fun p hp => List.mem_append_right _ (List.mem_cons_of_mem bad hp)
  have hpbad : bad ∈ pre ++ bad :: post :=
    List.mem_append_right _ (List.mem_cons_self bad post)
  have hndparts : (pre.map buildHivePath).Nodup ∧ ((bad :: post).map buildHivePath).Nodup ∧
      ∀ x ∈ pre, ∀ y ∈ bad :: post, buildHivePath x ≠ buildHivePath y := by
    rw [List.map_append, List.nodup_append] at hnd
    refine ⟨hnd.1, hnd.2.1, ?_⟩
    intro x hx y hy heq
    exact hnd.2.2 (List.mem_map_of_mem buildHivePath hx)
      (by rw [heq]; exact List.mem_map_of_mem buildHivePath hy)
  have hbadpost : buildHivePath bad ∉ post.map buildHivePath ∧
      (post.map buildHivePath).Nodup := by
    have h := hndparts.2.1
    rw [List.map_cons, List.nodup_cons] at h
    exact h
  have h1 : List.foldl (processOne ops) ⟨0, 0, 0, [], gcs.hiveObjects⟩ pre =
      ⟨pre.length, 0, 0, [], gcs.hiveObjects ++ pre.map buildHivePath⟩ := by
    rw [foldl_all_copy ops pre ⟨0, 0, 0, [], gcs.hiveObjects⟩
      (fun p hp => ⟨hex p (hppre p hp), hcp p (List.mem_append_left _ hp)⟩)
      (fun p hp => habs p (hppre p hp))
      hndparts.1]
    simp
  have hbadnotin : buildHivePath bad ∉ gcs.hiveObjects ++ pre.map buildHivePath := by
    intro hin
    rcases List.mem_append.mp hin with hA | hB
    · exact habs bad hpbad hA
    · rcases List.mem_map.mp hB with ⟨x, hx, hxeq⟩
      exact hndparts.2.2 x hx bad (List.mem_cons_self bad post) hxeq
  have h2 : processOne ops ⟨pre.length, 0, 0, [], gcs.hiveObjects ++ pre.map buildHivePath⟩ bad =
      ⟨pre.length, 0, 1, [(bad.fullPath, msg)], gcs.hiveObjects ++ pre.map buildHivePath⟩ := by
    rw [processOne_copyerr ops ⟨pre.length, 0, 0, [], gcs.hiveObjects ++ pre.map buildHivePath⟩
      bad msg (hex bad hpbad) hbadnotin hbad]
    simp
  have h3 : List.foldl (processOne ops)
      ⟨pre.length, 0, 1, [(bad.fullPath, msg)], gcs.hiveObjects ++ pre.map buildHivePath⟩ post =
      ⟨pre.length + post.length, 0, 1, [(bad.fullPath, msg)],
        gcs.hiveObjects ++ pre.map buildHivePath ++ post.map buildHivePath⟩ := by
    rw [foldl_all_copy ops post
      ⟨pre.length, 0, 1, [(bad.fullPath, msg)], gcs.hiveObjects ++ pre.map buildHivePath⟩
      (fun p hp => ⟨hex p (hppost p hp), hcp p (List.mem_append_right _ hp)⟩)
      (fun p hp hin => by
        rcases List.mem_append.mp hin with hA | hB
        · exact habs p (hppost p hp) hA
        · rcases List.mem_map.mp hB with ⟨x, hx, hxeq⟩
          exact hndparts.2.2 x hx p (List.mem_cons_of_mem bad hp) hxeq)
      hbadpost.2]
  have foldeq : List.foldl (processOne ops) ⟨0, 0, 0, [], gcs.hiveObjects⟩
      (pre ++ bad :: post) =
      ⟨pre.length + post.length, 0, 1, [(bad.fullPath, msg)],
        gcs.hiveObjects ++ pre.map buildHivePath ++ post.map buildHivePath⟩ := by
    rw [List.foldl_append, h1, List.foldl_cons, h2, h3]
  unfold reorganizeToHive
  rw [hlive]
  simp only [Bool.false_eq_true, if_false, hstg, hhv, if_true, hsplit]
  rw [foldeq]
  refine ⟨by simp; omega, rfl, rfl, rfl, ?_⟩
  intro p hp
  exact List.mem_append_right _ (List.mem_map_of_mem buildHivePath hp)

/-- Witness for C2: object #3 of 10 eligible objects fails its copy;
objects #4-#10 are still attempted and copied, `files_errored = 1` and
`files_processed = 10`. -/
theorem reorganize_error_isolated_witness :
    (reorganizeToHive cfgLiveFull opsW2 0 gcsW2).result.files_processed = 2 + 1 + 7 ∧
    (reorganizeToHive cfgLiveFull opsW2 0 gcsW2).result.files_errored = 1 ∧
    (reorganizeToHive cfgLiveFull opsW2 0 gcsW2).result.files_copied = 2 + 7 ∧
    (reorganizeToHive cfgLiveFull opsW2 0 gcsW2).errors = [(badW2.fullPath, "copy failed")] ∧
    ∀ p ∈ psW2.drop 3, buildHivePath p ∈ (reorganizeToHive cfgLiveFull opsW2 0 gcsW2).gcs.hiveObjects := by
  have h := reorganize_error_isolated cfgLiveFull opsW2 0 gcsW2
    (psW2.take 2) (psW2.drop 3) badW2 "copy failed"
    rfl rfl rfl
    (by decide) (by decide) (by decide) (by decide) (by decide) (by decide)
  simpa using h

/-- Congruence for `filterMap`. -/
theorem filterMap_ext {α β : Type} (f g : α → Option β) (l : List α)
    (h : ∀ x ∈ l, f x = g x) : l.filterMap f = l.filterMap g := by
  induction l with
  | nil => rfl
  | cons a l ih =>
    rw [List.filterMap_cons, List.filterMap_cons, h a (List.mem_cons_self a l),
      ih (fun x hx => h x (List.mem_cons_of_mem a hx))]

/-- Every parsed file's derived date is a local midnight, i.e. a whole
multiple of `msPerDay`. -/
theorem parseFilePath_date_dvd (n : String) (p : ParsedFile)
    (h : parseFilePath n = some p) : ∃ k : Int, p.date = k * msPerDay := by
  unfold parseFilePath at h
  cases h0 : dropLiteral "FOCUS-Reports/".toList n.toList with
  | none => simp only [h0] at h; cases h
  | some r0 =>
  simp only [h0] at h
  cases h1 : takeDigits 4 r0 with
  | none => simp only [h1] at h; cases h
  | some yr1 =>
  obtain ⟨y, r1⟩ := yr1
  simp only [h1] at h
  cases h2 : dropLiteral ['/'] r1 with
  | none => simp only [h2] at h; cases h
  | some r2 =>
  simp only [h2] at h
  cases h3 : takeDigits 2 r2 with
  | none => simp only [h3] at h; cases h
  | some mr3 =>
  obtain ⟨m, r3⟩ := mr3
  simp only [h3] at h
  cases h4 : dropLiteral ['/'] r3 with
  | none => simp only [h4] at h; cases h
  | some r4 =>
  simp only [h4] at h
  cases h5 : takeDigits 2 r4 with
  | none => simp only [h5] at h; cases h
  | some dr5 =>
  obtain ⟨d, r5⟩ := dr5
  simp only [h5] at h
  cases h6 : dropLiteral ['/'] r5 with
  | none => simp only [h6] at h; cases h
  | some f =>
  simp only [h6] at h
  by_cases h7 : filenameOk f = true
  · rw [if_pos h7] at h
    refine ⟨jsDateDays (digitsVal y) ((digitsVal m : Int) - 1) (digitsVal d), ?_⟩
    rw [(Option.some.inj h).symm]
  · rw [if_neg h7] at h; cases h

/-- On midnight dates the millisecond comparison of `isWithinDateRange`
is exactly the civil-day comparison against the cutoff day. -/
theorem isWithinDateRange_day (k nowMs daysToSync : Int) :
    isWithinDateRange (k * msPerDay) nowMs daysToSync
      = decide (cutoffDay nowMs daysToSync ≤ k) := by
  unfold isWithinDateRange cutoffDay
  have hpos : (0 : Int) < msPerDay := by norm_num [msPerDay]
  by_cases hle : nowMs.fdiv msPerDay - daysToSync ≤ k
  · rw [decide_eq_true hle, decide_eq_true ((mul_le_mul_right hpos).mpr hle)]
  · rw [decide_eq_false hle, decide_eq_false (by
      intro hcon
      exact hle ((mul_le_mul_right hpos).mp hcon))]

/-- C4: the parse-and-filter loop retains a parsed object in incremental
mode exactly when its derived date (local midnight of its components) is
on or after the cutoff date — current date minus `daysToSync`, truncated
to midnight — a closed lower bound with no upper bound, and in full mode
retains every parsed object with no date filtering. -/
theorem incremental_window_day_closed (cfg : Config) (nowMs : Int) (objs : List String) :
    eligibleFiles cfg nowMs objs =
      (listedNames objs).filterMap (fun n =>
        match parseFilePath n with
        | none => none
        | some p => if specRetains cfg nowMs p then some p else none) := by
  unfold eligibleFiles
  apply filterMap_ext
  intro n _
  cases hp : parseFilePath n with
  | none => rfl
  | some p =>
  rcases parseFilePath_date_dvd n p hp with ⟨k, hk⟩
  unfold keepFile specRetains
  cases cfg.syncMode with
  | full => rfl
  | incremental =>
    simp only []
    have hfd : fileDay p = k := by
      unfold fileDay
      rw [hk]
      exact Int.mul_fdiv_cancel k (by norm_num [msPerDay])
    rw [hk, isWithinDateRange_day k nowMs cfg.daysToSync, hfd]

/-- Inversion: consuming a literal splits the input. -/
theorem dropLiteral_eq (lit : List Char) :
    ∀ (cs r : List Char), dropLiteral lit cs = some r → cs = lit ++ r := by
  induction lit with
  | nil =>
    intro cs r h
    cases cs <;> simp_all [dropLiteral]
  | cons l ls ih =>
    intro cs r h
    cases cs with
    | nil => cases h
    | cons c cs' =>
      unfold dropLiteral at h
      by_cases hc : c = l
      · rw [if_pos hc] at h
        rw [List.cons_append, hc, ih cs' r h]
      · rw [if_neg hc] at h; cases h

/-- Inversion: consuming `n` digits splits the input into `n` digit
characters and a remainder. -/
theorem takeDigits_eq (n : Nat) :
    ∀ (cs ds r : List Char), takeDigits n cs = some (ds, r) →
      cs = ds ++ r ∧ ds.length = n ∧ ∀ c ∈ ds, isDigit c = true := by
  induction n with
  | zero =>
    intro cs ds r h
    cases cs <;> simp_all [takeDigits]
  | succ n ih =>
    intro cs ds r h
    cases cs with
    | nil => cases h
    | cons c cs' =>
      unfold takeDigits at h
      by_cases hd : isDigit c = true
      · rw [if_pos hd] at h
        cases hrec : takeDigits n cs' with
        | none => rw [hrec] at h; cases h
        | some p =>
          rw [hrec] at h
          obtain ⟨ds', r'⟩ := p
          injection h with h'
          injection h' with h1 h2
          obtain ⟨hcs, hlen, hall⟩ := ih cs' ds' r' hrec
          subst h1; subst h2
          refine ⟨by rw [List.cons_append, hcs], by simp [hlen], ?_⟩
          intro x hx
          rcases List.mem_cons.mp hx with rfl | hx'
          · exact hd
          · exact hall x hx'
      · rw [if_neg hd] at h; cases h

/-- The filename check implies the specification's filename shape. -/
theorem filenameOk_spec (f : List Char) (h : filenameOk f = true) : filenameSpec f := by
  unfold filenameOk at h
  rw [Bool.and_eq_true, Bool.and_eq_true] at h
  obtain ⟨⟨hlen, hsuf⟩, hall⟩ := h
  have hlen' : 8 ≤ f.length := of_decide_eq_true hlen
  have hsuf' : f.drop (f.length - 7) = ".csv.gz".toList := eq_of_beq hsuf
  constructor
  · refine ⟨f.take (f.length - 7), ?_, ?_⟩
    · intro hnil
      have : (f.take (f.length - 7)).length = 0 := by rw [hnil]; rfl
      rw [List.length_take] at this
      omega
    · rw [← hsuf', List.take_append_drop]
  · intro c hc
    have := List.all_eq_true.mp hall c hc
    simpa using this

/-- Parser soundness: a successfully parsed key has the specified
staged-key structure. -/
theorem parseFilePath_sound (s : String) (p : ParsedFile)
    (h : parseFilePath s = some p) : matchesKeyStructure s := by
  unfold parseFilePath at h
  cases h0 : dropLiteral "FOCUS-Reports/".toList s.toList with
  | none => simp only [h0] at h; cases h
  | some r0 =>
  simp only [h0] at h
  cases h1 : takeDigits 4 r0 with
  | none => simp only [h1] at h; cases h
  | some yr1 =>
  obtain ⟨y, r1⟩ := yr1
  simp only [h1] at h
  cases h2 : dropLiteral ['/'] r1 with
  | none => simp only [h2] at h; cases h
  | some r2 =>
  simp only [h2] at h
  cases h3 : takeDigits 2 r2 with
  | none => simp only [h3] at h; cases h
  | some mr3 =>
  obtain ⟨m, r3⟩ := mr3
  simp only [h3] at h
  cases h4 : dropLiteral ['/'] r3 with
  | none => simp only [h4] at h; cases h
  | some r4 =>
  simp only [h4] at h
  cases h5 : takeDigits 2 r4 with
  | none => simp only [h5] at h; cases h
  | some dr5 =>
  obtain ⟨d, r5⟩ := dr5
  simp only [h5] at h
  cases h6 : dropLiteral ['/'] r5 with
  | none => simp only [h6] at h; cases h
  | some f =>
  simp only [h6] at h
  by_cases h7 : filenameOk f = true
  · refine ⟨y, m, d, f, ?_, (takeDigits_eq 4 r0 y r1 h1).2.1,
      (takeDigits_eq 4 r0 y r1 h1).2.2, (takeDigits_eq 2 r2 m r3 h3).2.1,
      (takeDigits_eq 2 r2 m r3 h3).2.2, (takeDigits_eq 2 r4 d r5 h5).2.1,
      (takeDigits_eq 2 r4 d r5 h5).2.2, filenameOk_spec f h7⟩
    rw [dropLiteral_eq _ _ _ h0, (takeDigits_eq 4 r0 y r1 h1).1,
      dropLiteral_eq _ _ _ h2, (takeDigits_eq 2 r2 m r3 h3).1,
      dropLiteral_eq _ _ _ h4, (takeDigits_eq 2 r4 d r5 h5).1,
      dropLiteral_eq _ _ _ h6]
    simp
  · rw [if_neg h7] at h; cases h

/-- Any key with the staged-key structure is at least 33 characters
long. -/
theorem matchesKeyStructure_length (s : String) (h : matchesKeyStructure s) :
    33 ≤ s.toList.length := by
  obtain ⟨y, m, d, f, heq, hy, _, hm, _, hd, _, ⟨⟨g, hg, hf⟩, _⟩⟩ := h
  have hglen : 1 ≤ g.length := by
    cases g with
    | nil => exact absurd rfl hg
    | cons a as => simp
  have hflen : 8 ≤ f.length := by
    rw [hf, List.length_append]
    have : (".csv.gz".toList).length = 7 := rfl
    omega
  rw [heq]
  simp only [List.length_append, List.length_cons]
  have hpre : ("FOCUS-Reports/".toList).length = 14 := rfl
  omega

/-- A key the parser rejects contributes nothing to the eligible list,
wherever it sits in the listing. -/
theorem eligibleFiles_drop_nonmatching (cfg : Config) (nowMs : Int) (key : String)
    (l1 l2 : List String) (hk : parseFilePath key = none) :
    eligibleFiles cfg nowMs (l1 ++ key :: l2) = eligibleFiles cfg nowMs (l1 ++ l2) := by
  unfold eligibleFiles listedNames
  rw [List.filter_append, List.filter_append, List.filter_cons]
  by_cases hpre : ("FOCUS-Reports/".toList.isPrefixOf key.toList) = true
  · simp only [hpre, if_pos]
    rw [List.filterMap_append, List.filterMap_append, List.filterMap_cons, hk]
  · simp only [hpre]
    rw [if_neg (by simp [hpre])]

/-- C5: a listed staging key without the structure
`FOCUS-Reports/<4 digits>/<2 digits>/<2 digits>/<name>.csv.gz` is
excluded silently in every sync mode: parsing returns `none`, and its
presence in the listing changes neither the returned statistics (so it is
not counted in `files_processed` and raises no error) nor the destination
bucket contents nor the reported error list. -/
theorem nonmatching_key_silently_excluded (key : String) (cfg : Config) (ops : Ops)
    (nowMs : Int) (gcs : Gcs) (l1 l2 : List String)
    (hnm : ¬ matchesKeyStructure key) :
    parseFilePath key = none ∧
    (reorganizeToHive cfg ops nowMs { gcs with stagingObjects := l1 ++ key :: l2 }).result =
      (reorganizeToHive cfg ops nowMs { gcs with stagingObjects := l1 ++ l2 }).result ∧
    (reorganizeToHive cfg ops nowMs { gcs with stagingObjects := l1 ++ key :: l2 }).gcs.hiveObjects =
      (reorganizeToHive cfg ops nowMs { gcs with stagingObjects := l1 ++ l2 }).gcs.hiveObjects ∧
    (reorganizeToHive cfg ops nowMs { gcs with stagingObjects := l1 ++ key :: l2 }).errors =
      (reorganizeToHive cfg ops nowMs { gcs with stagingObjects := l1 ++ l2 }).errors := by
  have hk : parseFilePath key = none := by
    cases hc : parseFilePath key with
    | none => rfl
    | some p => exact absurd (parseFilePath_sound key p hc) hnm
  refine ⟨hk, ?_⟩
  unfold reorganizeToHive
  cases hdry : cfg.dryRun with
  | true =>
    simp only [if_true]
    cases hs : gcs.stagingExists with
    | false => simp [hs]
    | true => simp [hs, eligibleFiles_drop_nonmatching cfg nowMs key l1 l2 hk]
  | false =>
    simp only [Bool.false_eq_true, if_false]
    cases hs : gcs.stagingExists with
    | false => simp [hs]
    | true =>
      simp only [hs, if_true]
      rw [eligibleFiles_drop_nonmatching cfg nowMs key l1 l2 hk]
      exact ⟨rfl, rfl, rfl⟩

/-- Witness for C5 at the key `bad-key` (too short to match). -/
theorem nonmatching_key_silently_excluded_witness :
    parseFilePath "bad-key" = none ∧
    (reorganizeToHive cfgLiveFull opsOk 0
        { gcsW5 with stagingObjects := [] ++ "bad-key" :: gcsW5.stagingObjects }).result =
      (reorganizeToHive cfgLiveFull opsOk 0
        { gcsW5 with stagingObjects := [] ++ gcsW5.stagingObjects }).result ∧
    (reorganizeToHive cfgLiveFull opsOk 0
        { gcsW5 with stagingObjects := [] ++ "bad-key" :: gcsW5.stagingObjects }).gcs.hiveObjects =
      (reorganizeToHive cfgLiveFull opsOk 0
        { gcsW5 with stagingObjects := [] ++ gcsW5.stagingObjects }).gcs.hiveObjects ∧
    (reorganizeToHive cfgLiveFull opsOk 0
        { gcsW5 with stagingObjects := [] ++ "bad-key" :: gcsW5.stagingObjects }).errors =
      (reorganizeToHive cfgLiveFull opsOk 0
        { gcsW5 with stagingObjects := [] ++ gcsW5.stagingObjects }).errors :=
  nonmatching_key_silently_excluded "bad-key" cfgLiveFull opsOk 0 gcsW5 []
    gcsW5.stagingObjects
    (fun h => absurd (matchesKeyStructure_length "bad-key" h) (by decide))

/-- C6: in live mode the Mirror Stage raises an error whenever the
external transfer tool exits non-zero (logging the tool's diagnostic
stream) and returns no statistics at all; it returns a `SyncResult` with
counters exactly when the tool exits zero — full success with counters or
full failure with an error, never partial statistics. -/
theorem sync_all_or_nothing (cfg : Config) (jp : List Char → Option RcloneStatsPartial)
    (run : ProcResult) (hlive : cfg.dryRun = false) :
    (run.exitCode ≠ 0 →
      (syncOciToGcs cfg jp run).1 =
        Except.error ("rclone sync failed with exit code " ++ toString run.exitCode) ∧
      run.stderr ∈ (syncOciToGcs cfg jp run).2) ∧
    (run.exitCode = 0 →
      (syncOciToGcs cfg jp run).1 =
        Except.ok
          { files_transferred :=
              (parseRcloneOutput jp (run.stdout ++ "\n" ++ run.stderr)).transfers.getD 0
            bytes_transferred :=
              (parseRcloneOutput jp (run.stdout ++ "\n" ++ run.stderr)).bytes.getD 0 }) := by
  unfold syncOciToGcs
  rw [hlive]
  constructor
  · intro hnz
    simp [hnz]
  · intro hz
    simp [hz]

/-- Witness for C6: a failing run produces the error and logs the
diagnostic stream; a succeeding run produces the parsed counters. -/
theorem sync_all_or_nothing_witness :
    ((syncOciToGcs cfgLiveFull jpNone runFailW).1 =
        Except.error ("rclone sync failed with exit code " ++ toString runFailW.exitCode) ∧
      runFailW.stderr ∈ (syncOciToGcs cfgLiveFull jpNone runFailW).2) ∧
    ((syncOciToGcs cfgLiveFull jpNone runOkW).1 =
      Except.ok
        { files_transferred :=
            (parseRcloneOutput jpNone (runOkW.stdout ++ "\n" ++ runOkW.stderr)).transfers.getD 0
          bytes_transferred :=
            (parseRcloneOutput jpNone (runOkW.stdout ++ "\n" ++ runOkW.stderr)).bytes.getD 0 }) :=
  ⟨(sync_all_or_nothing cfgLiveFull jpNone runFailW rfl).1 (by decide),
   (sync_all_or_nothing cfgLiveFull jpNone runOkW rfl).2 rfl⟩

/-- C7: output parsing tries a structured progress line first; when one
parses, it is returned as-is, shadowing both textual patterns entirely —
even for fields the structured line lacks — and only when no candidate
line parses does the textual fallback run, each of the two patterns
independently filling its own fields. -/
theorem rclone_parse_structured_shadows (jp : List Char → Option RcloneStatsPartial)
    (out : String) (j : RcloneStatsPartial) :
    (tryJsonLines jp (splitOnNl out.toList) = some j → parseRcloneOutput jp out = j) ∧
    (tryJsonLines jp (splitOnNl out.toList) = none →
      (parseRcloneOutput jp out).transfers
          = (scanMatch matchCountAt out.toList).map (fun r => (r.1 : ℚ)) ∧
      (parseRcloneOutput jp out).totalTransfers
          = (scanMatch matchCountAt out.toList).map (fun r => (r.2 : ℚ)) ∧
      (parseRcloneOutput jp out).bytes
          = (scanMatch matchBytesAt out.toList).bind (fun r =>
              (parseFloatQ r.1).map (fun q => ((jsRound (q * unitMultiplier r.2) : ℚ))))) := by
  constructor
  · intro hj
    unfold parseRcloneOutput
    rw [hj]
  · intro hn
    unfold parseRcloneOutput
    rw [hn]
    unfold fallbackStats
    cases hc : scanMatch matchCountAt out.toList with
    | none =>
      cases hb : scanMatch matchBytesAt out.toList with
      | none => exact ⟨rfl, rfl, rfl⟩
      | some r =>
        obtain ⟨num, unit⟩ := r
        cases hq : parseFloatQ num with
        | none => simp [hq]
        | some q => simp [hq]
    | some r =>
      cases hb : scanMatch matchBytesAt out.toList with
      | none => exact ⟨rfl, rfl, rfl⟩
      | some rb =>
        obtain ⟨num, unit⟩ := rb
        cases hq : parseFloatQ num with
        | none => simp [hq]
        | some q => simp [hq]

/-- Witness for C7: a parseable structured line with no byte field
shadows a textual byte summary present in the same output, leaving the
byte field unset even though the byte pattern matches. -/
theorem rclone_parse_structured_shadows_witness :
    parseRcloneOutput jpW7 outW7 = statsW7 ∧
    (scanMatch matchBytesAt outW7.toList).isSome = true :=
  ⟨(rclone_parse_structured_shadows jpW7 outW7 statsW7).1 (by decide), by decide⟩

/-- Evaluating `Math.round` through its floor characterisation. -/
theorem jsRound_of_eq (q : ℚ) (z : Int) (h1 : (z : ℚ) ≤ q + 1 / 2)
    (h2 : q + 1 / 2 < z + 1) : jsRound q = z := by
  unfold jsRound
  rw [Int.floor_eq_iff]
  exact ⟨h1, h2⟩

/-- C8, counterexample to the claim as stated: an input string
containing `Transferred: 1.5 GiB` need not parse to 1610612736 bytes —
the pattern takes the leftmost match, so an earlier byte quantity
(`Transferred: 2 KB`) wins and the parsed byte count is 2048. -/
theorem byte_parse_earlier_match_shadows_cex :
    containsSub "Transferred: 1.5 GiB".toList cexOut8.toList = true ∧
    (parseRcloneOutput jpNone cexOut8).bytes = some 2048 ∧
    (2048 : ℚ) ≠ 1610612736 := by
  refine ⟨by decide, ?_, by norm_num⟩
  have hjson : tryJsonLines jpNone (splitOnNl cexOut8.toList) = none := rfl
  have hb : scanMatch matchBytesAt cexOut8.toList = some ("2".toList, "KB".toList) := by
    decide
  have hc : scanMatch matchCountAt cexOut8.toList = none := by decide
  have hq : parseFloatQ "2".toList = some ((digitsVal ['2'] : ℚ)) := rfl
  have hu : unitMultiplier "KB".toList = (1024 : ℚ) := rfl
  unfold parseRcloneOutput fallbackStats
  simp only [hjson, hb, hc, hq, hu]
  have h2 : (digitsVal ['2'] : ℚ) = 2 := by
    rw [show digitsVal ['2'] = 2 from rfl]
    norm_num
  rw [h2]
  have hr : jsRound ((2 : ℚ) * 1024) = 2048 := by
    apply jsRound_of_eq <;> norm_num
  rw [hr]
  norm_num

/-- C8, amended: when no structured line parses and the first textual
byte-pattern match of the input captures the number `1.5` and the unit
`GiB`, the parsed byte count is `1.5 × 1024³ = 1610612736` — binary
multiples, rounded to the nearest whole byte. -/
theorem byte_parse_first_match_binary_units (jp : List Char → Option RcloneStatsPartial)
    (out : String)
    (hjson : tryJsonLines jp (splitOnNl out.toList) = none)
    (hmatch : scanMatch matchBytesAt out.toList = some ("1.5".toList, "GiB".toList)) :
    (parseRcloneOutput jp out).bytes = some 1610612736 := by
  have hq : parseFloatQ "1.5".toList
      = some ((digitsVal ['1'] : ℚ) + (digitsVal ['5'] : ℚ) / (10 : ℚ) ^ (1 : Nat)) := rfl
  have hu : unitMultiplier "GiB".toList = ((1024 : ℚ) * 1024 * 1024) := rfl
  have hv : (digitsVal ['1'] : ℚ) + (digitsVal ['5'] : ℚ) / (10 : ℚ) ^ (1 : Nat)
      = 3 / 2 := by
    rw [show digitsVal ['1'] = 1 from rfl, show digitsVal ['5'] = 5 from rfl]
    norm_num
  have hr : jsRound ((3 / 2 : ℚ) * (1024 * 1024 * 1024)) = 1610612736 := by
    apply jsRound_of_eq <;> norm_num
  unfold parseRcloneOutput fallbackStats
  cases hcnt : scanMatch matchCountAt out.toList with
  | none =>
    simp only [hjson, hmatch, hcnt, hq, hv, hu, hr]
    norm_num
  | some r =>
    simp only [hjson, hmatch, hcnt, hq, hv, hu, hr]
    norm_num

/-- Witness for the amended C8 at the input `Transferred: 1.5 GiB`. -/
theorem byte_parse_first_match_binary_units_witness :
    (parseRcloneOutput jpNone outW8).bytes = some 1610612736 :=
  byte_parse_first_match_binary_units jpNone outW8 rfl (by decide)

/-- C9: the staged-key pattern validates digit counts only, not
calendar validity: `FOCUS-Reports/2024/13/40/x.csv.gz` (month 13, day 40)
is accepted, its derived date is the JavaScript rollover 2025-02-09, and
the incremental-window decision is made under that rolled-over date — the
object is retained exactly when 2025-02-09 is on or after the cutoff. -/
theorem rollover_date_processed :
    (parseFilePath rolloverKey).map (fun p => p.date)
        = some (daysFromCivil 2025 2 9 * msPerDay) ∧
    (eligibleFiles cfgIncr9 (daysFromCivil 2025 2 16 * msPerDay) [rolloverKey]).length = 1 ∧
    (eligibleFiles cfgIncr9 (daysFromCivil 2025 2 17 * msPerDay) [rolloverKey]).length = 0 := by
  refine ⟨by decide, by decide, by decide⟩
